import Mathlib

/-!
Verification of the Budget-Pay statement-import pipeline.

This file gives a shallow embedding of the transaction-import core of the
repository (`app/utils/transactions_import.py` together with the per-row
loop of `import_transactions_from_statement` in
`app/api/v1/routes/transactions.py` and the store collaborators it calls),
and proves theorems about column detection, withdrawal resolution, date
parsing, PDF multi-line row reconstruction, category classification and
the import orchestrator.

Modelling conventions: Python strings are `List Char`; `None`-able values
are `Option`; Python floats are `Rat` (the code only does exact decimal
arithmetic, comparison and `abs`, faithfully mirrored by rationals);
database collaborators are explicit lists threaded through the loop.
-/

namespace BudgetPay

/-- Python strings, modelled as lists of characters. -/
abbrev Str := List Char

/-- Character list of a Lean string literal. -/
def chars (s : String) : Str := s.data

/-- ASCII whitespace stripped by Python `str.strip()`. -/
def isPySpace (c : Char) : Bool :=
  c == ' ' || c == '\t' || c == '\n' || c == '\r' || c == '\x0b' || c == '\x0c'

/-- Python `str.strip()`. -/
def strip (s : Str) : Str :=
  ((s.dropWhile isPySpace).reverse.dropWhile isPySpace).reverse

/-- Python `str.lower()` (the inputs involved are ASCII). -/
def pyLower (s : Str) : Str := s.map Char.toLower

/-- Python `str.upper()` (the inputs involved are ASCII). -/
def pyUpper (s : Str) : Str := s.map Char.toUpper

/-- Worker for `removeSub`; the fuel argument (instantiated with the length
of the string, which bounds the number of steps) only makes the recursion
structural, so the definition computes inside the kernel. -/
def removeSubFuel (sub : Str) : Nat → Str → Str
  | _, [] => []
  | 0, s => s
  | fuel + 1, c :: rest =>
    if sub ≠ [] ∧ sub.isPrefixOf (c :: rest) then
      removeSubFuel sub fuel ((c :: rest).drop sub.length)
    else
      c :: removeSubFuel sub fuel rest

/-- Python `s.replace(sub, "")` for a non-empty `sub`: removes every
(left-to-right, non-overlapping) occurrence of `sub` from `s`. -/
def removeSub (sub : Str) (s : Str) : Str := removeSubFuel sub s.length s

/-- Python substring containment `needle in hay`. -/
def containsSub (needle : Str) (hay : Str) : Bool :=
  match hay with
  | [] => needle.isEmpty
  | c :: rest => needle.isPrefixOf (c :: rest) || containsSub needle rest

/-- Embeds the helper `_normalize`: `s.strip().lower().replace("﻿", "")`. -/
def pyNormalize (s : Str) : Str :=
  removeSub (chars "﻿") (pyLower (strip s))

/-- Index of the first element of the list satisfying `p` (the loop shape
used twice inside `_find_column`). -/
def first_index_where (p : Str → Bool) : List Str → Option Nat
  | [] => none
  | x :: xs => if p x then some 0 else (first_index_where p xs).map (· + 1)

/-- Embeds `_find_column`: every header cell is normalized; a full scan for
an exact candidate match is done first, and only when it fails is a second
scan done for a containment ("substring") match. -/
def find_column (header : List Str) (candidates : List Str) : Option Nat :=
  let normalized := header.map pyNormalize
  match first_index_where (fun name => candidates.any (fun cand => cand == name)) normalized with
  | some idx => some idx
  | none =>
    first_index_where (fun name => candidates.any (fun cand => containsSub cand name)) normalized

/-- Numeric value of a digit character. -/
def digitVal (c : Char) : Nat := c.toNat - 48

/-- Value of a string of decimal digits. -/
def digitsVal (s : Str) : Nat := s.foldl (fun acc c => acc * 10 + digitVal c) 0

/-- Exact decimal number `num / 10 ^ scale`. Models the Python floats
the importer manipulates: amount tokens are decimal literals, and the code
only negates them, takes `abs`, and compares them, operations that exact
decimals mirror faithfully. -/
structure Dec where
  num : Int
  scale : Nat
deriving DecidableEq

namespace Dec

/-- Strictly positive (`x > 0` on the modelled float). -/
def isPos (a : Dec) : Bool := 0 < a.num

/-- Strictly negative (`x < 0`). -/
def isNeg (a : Dec) : Bool := a.num < 0

/-- Non-positive (`x <= 0`). -/
def isNonPos (a : Dec) : Bool := a.num ≤ 0

/-- Python `abs`. -/
def dabs (a : Dec) : Dec := ⟨(a.num.natAbs : Int), a.scale⟩

/-- Numeric equality of two decimals (cross-multiplied), the comparison the
duplicate-check query performs on amounts. -/
def eqv (a b : Dec) : Bool := a.num * (10 : Int) ^ b.scale == b.num * (10 : Int) ^ a.scale

end Dec

/-- Models the builtin `float(s)` on the decimal notations a bank statement
amount can take: optional sign, digits with an optional fractional part
(`"12"`, `"12.5"`, `"12."`, `".5"`), and an optional integer exponent
(`"1e3"`). The words `inf`/`nan`, which denote no rational value, are
modelled as unparseable. -/
def pyFloat (s : Str) : Option Dec :=
  let sign : Int := match s with | '-' :: _ => -1 | _ => 1
  let s1 : Str := match s with | '+' :: rest => rest | '-' :: rest => rest | _ => s
  let intPart := s1.takeWhile Char.isDigit
  let s2 := s1.dropWhile Char.isDigit
  let mantAndRest : Option Dec × Str :=
    match s2 with
    | '.' :: rest =>
      let frac := rest.takeWhile Char.isDigit
      let s3 := rest.dropWhile Char.isDigit
      if intPart = [] ∧ frac = [] then (none, s3)
      else (some ⟨sign * (digitsVal (intPart ++ frac) : Int), frac.length⟩, s3)
    | _ =>
      (if intPart = [] then none else some ⟨sign * (digitsVal intPart : Int), 0⟩, s2)
  match mantAndRest with
  | (none, _) => none
  | (some m, []) => some m
  | (some m, e :: rest) =>
    if e = 'e' ∨ e = 'E' then
      let eneg : Bool := match rest with | '-' :: _ => true | _ => false
      let r1 : Str := match rest with | '+' :: r => r | '-' :: r => r | _ => rest
      let ed := r1.takeWhile Char.isDigit
      let r2 := r1.dropWhile Char.isDigit
      if ed = [] ∨ r2 ≠ [] then none
      else if eneg then some ⟨m.num, m.scale + digitsVal ed⟩
      else some ⟨m.num * (10 : Int) ^ digitsVal ed, m.scale⟩
    else none

/-- Embeds `_parse_float`: normalize, reject empty and `"-"`, strip the
thousands separator and currency markers (`","`, `"₹"`, `"rs."`, `"rs"`, in
that order), strip whitespace, then parse as a float. -/
def parse_float (value : Option Str) : Option Dec :=
  match value with
  | none => none
  | some v =>
    let s := pyNormalize v
    if s = [] ∨ s = ['-'] then none
    else
      pyFloat (strip (removeSub (chars "rs") (removeSub (chars "rs.")
        (removeSub (chars "₹") (removeSub (chars ",") s)))))

/-- Result of the Python `datetime` constructor as the import code uses it
(naive, second precision). -/
structure PyDateTime where
  year : Nat
  month : Nat
  day : Nat
  hour : Nat
  minute : Nat
  second : Nat
deriving DecidableEq

/-- Gregorian leap-year rule used by `datetime`. -/
def isLeapYear (y : Nat) : Bool := y % 4 = 0 && (y % 100 ≠ 0 || y % 400 = 0)

/-- Number of days in a month, as validated by the `datetime` constructor. -/
def daysInMonth (y m : Nat) : Nat :=
  if m = 2 then (if isLeapYear y then 29 else 28)
  else if m = 4 ∨ m = 6 ∨ m = 9 ∨ m = 11 then 30
  else 31

/-- Models the validating `datetime(year, month, day, hour, minute, second)`
constructor: `None` stands for the `ValueError` it raises on out-of-range
fields. -/
def mkDateTime (y m d hh mi ss : Nat) : Option PyDateTime :=
  if 1 ≤ y ∧ y ≤ 9999 ∧ 1 ≤ m ∧ m ≤ 12 ∧ 1 ≤ d ∧ d ≤ daysInMonth y m
      ∧ hh ≤ 23 ∧ mi ≤ 59 ∧ ss ≤ 59 then
    some ⟨y, m, d, hh, mi, ss⟩
  else none

/-- Consumes a `%d` directive the way CPython `_strptime` does: the regex
`3[01]|[12]\d|0[1-9]|[1-9]` with leftmost-alternative preference. -/
def matchDay : Str → Option (Nat × Str)
  | '3' :: '0' :: rest => some (30, rest)
  | '3' :: '1' :: rest => some (31, rest)
  | '3' :: rest => some (3, rest)
  | c1 :: c2 :: rest =>
    if (c1 = '1' ∨ c1 = '2') ∧ c2.isDigit then some (digitVal c1 * 10 + digitVal c2, rest)
    else if c1 = '0' ∧ c2.isDigit ∧ c2 ≠ '0' then some (digitVal c2, rest)
    else if c1.isDigit ∧ c1 ≠ '0' then some (digitVal c1, c2 :: rest)
    else none
  | [c] => if c.isDigit ∧ c ≠ '0' then some (digitVal c, []) else none
  | [] => none

/-- Consumes a `%m` directive: the regex `1[0-2]|0[1-9]|[1-9]` with
leftmost-alternative preference. -/
def matchMonth : Str → Option (Nat × Str)
  | c1 :: c2 :: rest =>
    if c1 = '1' ∧ (c2 = '0' ∨ c2 = '1' ∨ c2 = '2') then some (10 + digitVal c2, rest)
    else if c1 = '0' ∧ c2.isDigit ∧ c2 ≠ '0' then some (digitVal c2, rest)
    else if c1.isDigit ∧ c1 ≠ '0' then some (digitVal c1, c2 :: rest)
    else none
  | [c] => if c.isDigit ∧ c ≠ '0' then some (digitVal c, []) else none
  | [] => none

/-- Consumes a `%Y` directive: exactly four digits. -/
def matchYear : Str → Option (Nat × Str)
  | a :: b :: c :: d :: rest =>
    if a.isDigit ∧ b.isDigit ∧ c.isDigit ∧ d.isDigit then
      some (digitVal a * 1000 + digitVal b * 100 + digitVal c * 10 + digitVal d, rest)
    else none
  | _ => none

/-- Case-insensitive longest-listed-first month-name matcher (the shape of
the `%b`/`%B` alternation `_strptime` compiles). -/
def matchNameCI (table : List (Str × Nat)) (s : Str) : Option (Nat × Str) :=
  match table with
  | [] => none
  | (name, v) :: rest =>
    if pyLower (s.take name.length) = name then some (v, s.drop name.length)
    else matchNameCI rest s

/-- Month abbreviations for `%b` (C locale), in table order. -/
def monthAbbrs : List (Str × Nat) :=
  [(chars "jan", 1), (chars "feb", 2), (chars "mar", 3), (chars "apr", 4),
   (chars "may", 5), (chars "jun", 6), (chars "jul", 7), (chars "aug", 8),
   (chars "sep", 9), (chars "oct", 10), (chars "nov", 11), (chars "dec", 12)]

/-- Full month names for `%B` (C locale), sorted longest first exactly as
`_strptime` sorts its alternation (stable by original order). -/
def monthNames : List (Str × Nat) :=
  [(chars "september", 9), (chars "february", 2), (chars "november", 11),
   (chars "december", 12), (chars "january", 1), (chars "october", 10),
   (chars "august", 8), (chars "march", 3), (chars "april", 4),
   (chars "june", 6), (chars "july", 7), (chars "may", 5)]

/-- Tokens of the six date formats `_parse_date` tries. -/
inductive FmtTok where
  | day
  | month
  | year
  | monthAbbr
  | monthFull
  | lit (c : Char)
  | ws
deriving DecidableEq

/-- Partial result of a `strptime` run; the defaults are `strptime`'s. -/
structure DMY where
  day : Nat := 1
  month : Nat := 1
  year : Nat := 1900
deriving DecidableEq

/-- Runs a format over the input, requiring full consumption (`strptime`
raises "unconverted data remains" otherwise). A whitespace token matches
one or more whitespace characters, as `_strptime` compiles `\s+`. -/
def runFmt (toks : List FmtTok) (s : Str) (acc : DMY) : Option DMY :=
  match toks with
  | [] => if s = [] then some acc else none
  | t :: rest =>
    match t with
    | .day =>
      match matchDay s with
      | some (d, s') => runFmt rest s' { acc with day := d }
      | none => none
    | .month =>
      match matchMonth s with
      | some (m, s') => runFmt rest s' { acc with month := m }
      | none => none
    | .year =>
      match matchYear s with
      | some (y, s') => runFmt rest s' { acc with year := y }
      | none => none
    | .monthAbbr =>
      match matchNameCI monthAbbrs s with
      | some (m, s') => runFmt rest s' { acc with month := m }
      | none => none
    | .monthFull =>
      match matchNameCI monthNames s with
      | some (m, s') => runFmt rest s' { acc with month := m }
      | none => none
    | .lit c =>
      match s with
      | c' :: s' => if c' = c then runFmt rest s' acc else none
      | [] => none
    | .ws =>
      match s with
      | c :: s' => if isPySpace c then runFmt rest (s'.dropWhile isPySpace) acc else none
      | [] => none

/-- One `datetime.strptime(s, fmt)` attempt followed by the
`datetime(dt.year, dt.month, dt.day)` time-zeroing `_parse_date` applies. -/
def strptimeDate (toks : List FmtTok) (s : Str) : Option PyDateTime :=
  match runFmt toks s {} with
  | none => none
  | some a => mkDateTime a.year a.month a.day 0 0 0

/-- The ordered format list of `_parse_date`: `%d/%m/%Y`, `%d-%m-%Y`,
`%Y-%m-%d`, `%m/%d/%Y`, `%d %b %Y`, `%d %B %Y`. -/
def dateFormats : List (List FmtTok) :=
  [ [.day, .lit '/', .month, .lit '/', .year]
  , [.day, .lit '-', .month, .lit '-', .year]
  , [.year, .lit '-', .month, .lit '-', .day]
  , [.month, .lit '/', .day, .lit '/', .year]
  , [.day, .ws, .monthAbbr, .ws, .year]
  , [.day, .ws, .monthFull, .ws, .year] ]

/-- Consumes exactly two digits. -/
def matchDigit2 : Str → Option (Nat × Str)
  | a :: b :: rest =>
    if a.isDigit ∧ b.isDigit then some (digitVal a * 10 + digitVal b, rest) else none
  | _ => none

/-- Time part of an ISO string: `HH:MM[:SS[.fff[fff]]]`. -/
def parseIsoTime (s : Str) : Option (Nat × Nat × Nat) :=
  match matchDigit2 s with
  | some (hh, ':' :: r1) =>
    match matchDigit2 r1 with
    | some (mi, []) => some (hh, mi, 0)
    | some (mi, ':' :: r2) =>
      match matchDigit2 r2 with
      | some (ss, []) => some (hh, mi, ss)
      | some (ss, '.' :: r3) =>
        if r3 ≠ [] ∧ r3.all Char.isDigit ∧ (r3.length = 3 ∨ r3.length = 6) then
          some (hh, mi, ss)
        else none
      | _ => none
    | _ => none
  | _ => none

/-- Models `datetime.fromisoformat` on the shapes a statement date token
can carry: `YYYY-MM-DD`, optionally followed by one separator character and
a time `HH:MM[:SS[.fff[fff]]]`. UTC offsets and the extra abbreviations
newer Python versions accept are outside the model. -/
def fromisoformat (s : Str) : Option PyDateTime :=
  match matchYear s with
  | none => none
  | some (y, r1) =>
    match r1 with
    | '-' :: r2 =>
      match matchDigit2 r2 with
      | none => none
      | some (m, r3) =>
        match r3 with
        | '-' :: r4 =>
          match matchDigit2 r4 with
          | none => none
          | some (d, r5) =>
            match r5 with
            | [] => mkDateTime y m d 0 0 0
            | _ :: r6 =>
              match parseIsoTime r6 with
              | some (hh, mi, ss) => mkDateTime y m d hh mi ss
              | none => none
        | _ => none
    | _ => none

/-- Embeds `_parse_date`: strip, try the six formats in order (first success
wins, with the time zeroed), then fall back to an ISO parse, again zeroing
the time; `None` if everything fails. -/
def parse_date (value : Option Str) : Option PyDateTime :=
  match value with
  | none => none
  | some v =>
    let s := strip v
    match dateFormats.findSome? (fun fmt => strptimeDate fmt s) with
    | some d => some d
    | none =>
      match fromisoformat s with
      | some dt => some ⟨dt.year, dt.month, dt.day, 0, 0, 0⟩
      | none => none

/-- The canonical row dictionary every adapter produces (keys `date`,
`description`, `debit`, `credit`, `amount`, `type`, `ref`). -/
structure CanonicalRow where
  date : Option Str
  description : Option Str
  debit : Option Str
  credit : Option Str
  amount : Option Str
  type : Option Str
  ref : Option Str
deriving DecidableEq

/-- Embeds `compute_withdrawal_amount`: positive `debit` wins; else a
positive `credit` excludes the row; else a combined `amount` is interpreted
through the `type` marker or, without one, through its sign; else `None`. -/
def compute_withdrawal_amount (row : CanonicalRow) : Option Dec :=
  let debit := parse_float row.debit
  let credit := parse_float row.credit
  let amount := parse_float row.amount
  let tx_type : Option Str := row.type.map pyNormalize
  if (match debit with | some d => d.isPos | none => false) then debit
  else if (match credit with | some c => c.isPos | none => false) then none
  else
    match amount with
    | some a =>
      if tx_type = some (chars "debit") ∨ tx_type = some (chars "dr")
          ∨ tx_type = some (chars "d") then some a.dabs
      else if tx_type = some (chars "credit") ∨ tx_type = some (chars "cr")
          ∨ tx_type = some (chars "c") then none
      else if a.isNeg then some a.dabs
      else none
    | none => none

/-- Embeds `build_description`: description plus an optional
`" (Ref: …)"` suffix, with the literal `"Transaction"` as last resort. -/
def build_description (row : CanonicalRow) : Str :=
  let base := strip (row.description.getD [])
  let ref := strip (row.ref.getD [])
  if ref ≠ [] then
    if base ≠ [] then base ++ chars " (Ref: " ++ ref ++ chars ")"
    else chars "Ref: " ++ ref
  else if base ≠ [] then base else chars "Transaction"

/-- Embeds `DEFAULT_KEYWORD_TO_CATEGORY` in its Python insertion order
(dictionaries iterate in insertion order, which is the priority order the
classifier relies on). -/
def DEFAULT_KEYWORD_TO_CATEGORY : List (Str × Str) :=
  [ (chars "zomato", chars "Food & Dining")
  , (chars "swiggy", chars "Food & Dining")
  , (chars "restaurant", chars "Food & Dining")
  , (chars "cafe", chars "Food & Dining")
  , (chars "coffee", chars "Food & Dining")
  , (chars "food", chars "Food & Dining")
  , (chars "grocery", chars "Groceries")
  , (chars "supermarket", chars "Groceries")
  , (chars "amazon", chars "Shopping")
  , (chars "flipkart", chars "Shopping")
  , (chars "myntra", chars "Shopping")
  , (chars "petrol", chars "Transport")
  , (chars "diesel", chars "Transport")
  , (chars "fuel", chars "Transport")
  , (chars "ola", chars "Transport")
  , (chars "uber", chars "Transport")
  , (chars "metro", chars "Transport")
  , (chars "bus", chars "Transport")
  , (chars "train", chars "Travel")
  , (chars "irctc", chars "Travel")
  , (chars "air", chars "Travel")
  , (chars "airasia", chars "Travel")
  , (chars "indigo", chars "Travel")
  , (chars "spicejet", chars "Travel")
  , (chars "hotel", chars "Travel")
  , (chars "rent", chars "Rent")
  , (chars "electricity", chars "Utilities")
  , (chars "water", chars "Utilities")
  , (chars "internet", chars "Utilities")
  , (chars "broadband", chars "Utilities")
  , (chars "mobile", chars "Utilities")
  , (chars "prepaid", chars "Utilities")
  , (chars "postpaid", chars "Utilities")
  , (chars "dth", chars "Utilities")
  , (chars "insurance", chars "Insurance")
  , (chars "lic", chars "Insurance")
  , (chars "health", chars "Healthcare")
  , (chars "hospital", chars "Healthcare")
  , (chars "pharmacy", chars "Healthcare")
  , (chars "medical", chars "Healthcare")
  , (chars "doctor", chars "Healthcare")
  , (chars "pharmeasy", chars "Healthcare")
  , (chars "1mg", chars "Healthcare")
  , (chars "upi", chars "Transfers")
  , (chars "imps", chars "Transfers")
  , (chars "neft", chars "Transfers")
  , (chars "rtgs", chars "Transfers")
  , (chars "atm", chars "Cash Withdrawal")
  , (chars "cash", chars "Cash Withdrawal") ]

/-- Embeds `choose_category_name_from_keywords`: normalize, first keyword of
the table contained in the text wins; else the first non-empty caller
category name contained (case-insensitively) wins; else `None`. -/
def choose_category_name_from_keywords (description : Str)
    (user_category_names : List Str) : Option Str :=
  let text := pyNormalize description
  if text = [] then none
  else
    match DEFAULT_KEYWORD_TO_CATEGORY.find? (fun kv => containsSub kv.1 text) with
    | some kv => some kv.2
    | none =>
      user_category_names.find? (fun name => !name.isEmpty && containsSub (pyNormalize name) text)

/-- Embeds `split_lines` inside `_explode_multiline_pdf_row`: `None` and
blank cells give no lines; otherwise split on newlines, strip each line and
drop the blank ones. -/
def split_lines (val : Option Str) : List Str :=
  match val with
  | none => []
  | some v =>
    if (strip v).isEmpty then []
    else ((v.splitOn '\n').map strip).filter (fun l => !l.isEmpty)

/-- Worker for `chunks`; the fuel argument (instantiated with the list
length, which bounds the number of slices) only makes the recursion
structural so the definition computes inside the kernel. Callers pass a
step `k ≥ 1`; the inner `max 1 k` merely guards the degenerate case. -/
def chunksFuel (k : Nat) : Nat → List Str → List (List Str)
  | _, [] => []
  | 0, l => [l]
  | fuel + 1, x :: xs =>
    ((x :: xs).take (max 1 k)) :: chunksFuel k fuel ((x :: xs).drop (max 1 k))

/-- Slices of size `k` taken left to right (the
`for i in range(0, len(desc_lines), lines_per_transaction)` loop); the last
slice may be shorter. -/
def chunks (k : Nat) (xs : List Str) : List (List Str) := chunksFuel k xs.length xs

/-- Python `while len(desc_groups) < n: desc_groups.append("")`. -/
def padTo (xs : List Str) (n : Nat) : List Str :=
  xs ++ List.replicate (n - xs.length) []

/-- The debit markers the PDF reconstruction looks for in a description. -/
def debitMarkers : List Str :=
  [chars "UPI-", chars "POS ", chars "ATM", chars "WITHDRAWAL"]

/-- Classification test of `_explode_multiline_pdf_row`: the uppercased
description contains one of the debit markers. -/
def looksLikeDebit (desc : Str) : Bool :=
  debitMarkers.any (fun kw => containsSub kw (pyUpper desc))

/-- One iteration of the amount-assignment block of
`_explode_multiline_pdf_row`: given the grouped description of position `i`
and the two cursors, produce the `debit`/`credit` cell values and the new
cursors. A truthy (non-empty) description is classified by markers and
consumes from its preferred list; whenever no amount was assigned the
fallback consumes from the debit list first, then the credit list. -/
def assign_amounts (debits credits : List Str) (desc_val : Option Str)
    (debit_idx credit_idx : Nat) : Option Str × Option Str × Nat × Nat :=
  let classified : Option Str × Option Str × Nat × Nat :=
    match desc_val with
    | some desc =>
      if desc ≠ [] then
        if looksLikeDebit desc then
          if debit_idx < debits.length then
            (debits.get? debit_idx, none, debit_idx + 1, credit_idx)
          else (none, none, debit_idx, credit_idx)
        else
          if credit_idx < credits.length then
            (none, credits.get? credit_idx, debit_idx, credit_idx + 1)
          else (none, none, debit_idx, credit_idx)
      else (none, none, debit_idx, credit_idx)
    | none => (none, none, debit_idx, credit_idx)
  if classified.1 = none ∧ classified.2.1 = none then
    if classified.2.2.1 < debits.length then
      (debits.get? classified.2.2.1, none, classified.2.2.1 + 1, classified.2.2.2)
    else if classified.2.2.2 < credits.length then
      (classified.1, credits.get? classified.2.2.2, classified.2.2.1,
        classified.2.2.2 + 1)
    else classified
  else classified

/-- The `for i in range(num_transactions)` loop of
`_explode_multiline_pdf_row`, carrying the debit and credit cursors. -/
def explode_go (dates desc_groups refs debits credits : List Str) :
    List Nat → Nat → Nat → List CanonicalRow
  | [], _, _ => []
  | i :: rest, debit_idx, credit_idx =>
    let date_val := dates.get? i
    let desc_val := desc_groups.get? i
    let ref_val := refs.get? i
    let assigned := assign_amounts debits credits desc_val debit_idx credit_idx
    { date := date_val
      description := desc_val
      debit := assigned.1
      credit := assigned.2.1
      amount := none
      type := none
      ref := ref_val } ::
      explode_go dates desc_groups refs debits credits rest assigned.2.2.1 assigned.2.2.2

/-- Embeds `_explode_multiline_pdf_row`: the number of date lines drives the
transaction count; description lines are grouped evenly, padded with empty
strings; amounts are assigned through the classification-and-cursor walk. -/
def explode_multiline_pdf_row (row : CanonicalRow) : List CanonicalRow :=
  let dates := split_lines row.date
  let debits := split_lines row.debit
  let credits := split_lines row.credit
  let desc_lines := split_lines row.description
  let refs := split_lines row.ref
  if dates = [] then []
  else
    let num_transactions := dates.length
    let lines_per_transaction := max 1 (desc_lines.length / num_transactions)
    let desc_groups0 :=
      if desc_lines = [] then []
      else (chunks lines_per_transaction desc_lines).map (List.intercalate (chars " "))
    let desc_groups := padTo desc_groups0 num_transactions
    explode_go dates desc_groups refs debits credits (List.range num_transactions) 0 0

/-- Candidate names for the `date` column (shared verbatim by the CSV and
Excel adapters). -/
def dateCandidates : List Str :=
  [chars "date", chars "transaction date", chars "txn date", chars "value date",
   chars "value dt", chars "valuedt", chars "posting date"]

/-- Candidate names for the `description` column. -/
def descCandidates : List Str :=
  [chars "description", chars "narration", chars "details", chars "merchant",
   chars "remarks", chars "particulars"]

/-- Candidate names for the `debit` column. -/
def debitCandidates : List Str :=
  [chars "debit", chars "debit amount", chars "withdrawal amt.",
   chars "withdrawal amount", chars "withdrawal", chars "dr"]

/-- Candidate names for the `credit` column. -/
def creditCandidates : List Str :=
  [chars "credit", chars "credit amount", chars "deposit amt.",
   chars "deposit amount", chars "deposit", chars "cr"]

/-- Candidate names for the combined `amount` column. -/
def amountCandidates : List Str :=
  [chars "amount", chars "transaction amount", chars "amt"]

/-- Candidate names for the `type` column. -/
def typeCandidates : List Str :=
  [chars "type", chars "transaction type", chars "dr/cr", chars "dr/ cr",
   chars "debit/credit", chars "crdr"]

/-- Candidate names for the `ref` column. -/
def refCandidates : List Str :=
  [chars "ref", chars "ref no", chars "reference", chars "reference no",
   chars "utr", chars "transaction id", chars "cheque no"]

/-- Column indices the CSV adapter (`parse_bank_statement_csv`) detects for
a header row; `none` means the field is populated with `None`. -/
structure CsvFieldIndices where
  date_idx : Option Nat
  desc_idx : Option Nat
  debit_idx : Option Nat
  credit_idx : Option Nat
  amount_idx : Option Nat
  type_idx : Option Nat
  ref_idx : Option Nat
deriving DecidableEq

/-- The column-detection block of `parse_bank_statement_csv`
(lines 86–106). -/
def csv_field_indices (header : List Str) : CsvFieldIndices :=
  { date_idx := find_column header dateCandidates
    desc_idx := find_column header descCandidates
    debit_idx := find_column header debitCandidates
    credit_idx := find_column header creditCandidates
    amount_idx := find_column header amountCandidates
    type_idx := find_column header typeCandidates
    ref_idx := find_column header refCandidates }

/-- Python `x or default` on an `Optional[int]`: both `None` and `0` are
falsy and give the default. -/
def pyOr (x : Option Nat) (dflt : Nat) : Nat :=
  match x with
  | none => dflt
  | some k => if k = 0 then dflt else k

/-- Column indices the Excel adapter (`parse_bank_statement_excel`) detects;
`date_idx` and `desc_idx` are plain integers because the source applies
`_find_column(...) or 0` and `_find_column(...) or 1` to them. -/
structure ExcelFieldIndices where
  date_idx : Nat
  desc_idx : Nat
  debit_idx : Option Nat
  credit_idx : Option Nat
  amount_idx : Option Nat
  type_idx : Option Nat
  ref_idx : Option Nat
deriving DecidableEq

/-- The column-detection block of `parse_bank_statement_excel`
(lines 156–162). -/
def excel_field_indices (header : List Str) : ExcelFieldIndices :=
  { date_idx := pyOr (find_column header dateCandidates) 0
    desc_idx := pyOr (find_column header descCandidates) 1
    debit_idx := find_column header debitCandidates
    credit_idx := find_column header creditCandidates
    amount_idx := find_column header amountCandidates
    type_idx := find_column header typeCandidates
    ref_idx := find_column header refCandidates }

/-- A transaction candidate (schema `TransactionCreate`) as the import
route builds it; the category id is modelled by the category's name, the
only attribute the loop's logic depends on. -/
structure TransactionCreate where
  description : Str
  amount : Dec
  category_id : Option Str
  transaction_date : PyDateTime
deriving DecidableEq

/-- The response schema `TransactionImportResult`; `created` holds the rows
the single bulk write persisted (one per accepted candidate). -/
structure TransactionImportResult where
  created_count : Nat
  skipped_count : Nat
  created : List TransactionCreate
  skipped_reasons : List Str
deriving DecidableEq

/-- A FastAPI `HTTPException`, the request-aborting error channel. -/
structure HTTPException where
  status_code : Nat
  detail : Str
deriving DecidableEq

/-- A stored transaction, as far as `transaction_exists` inspects it. -/
structure StoredTransaction where
  description : Str
  amount : Dec
  transaction_date : PyDateTime
deriving DecidableEq

/-- The user's slice of the store consulted by the route: persisted
transactions and category names. -/
structure Db where
  transactions : List StoredTransaction
  categories : List Str
deriving DecidableEq

/-- Embeds `transaction_exists` (crud): case-insensitive description
equality, numeric amount equality, exact date equality, against the
already-persisted transactions only. -/
def transaction_exists (db : Db) (description : Str) (amount : Dec)
    (dt : PyDateTime) : Bool :=
  db.transactions.any (fun t =>
    pyLower t.description == pyLower description && Dec.eqv t.amount amount
      && t.transaction_date == dt)

/-- Mutable state of the per-row loop: accepted candidates, skip reasons,
the in-memory `user_category_names` list, and the category store (both of
which category creation extends). -/
structure LoopState where
  tx_inputs : List TransactionCreate
  skipped_reasons : List Str
  user_category_names : List Str
  categories : List Str
deriving DecidableEq

/-- Skip reason for a row whose amount does not resolve to a withdrawal. -/
def notWithdrawalMsg : Str := chars "Not a withdrawal or amount missing"

/-- Skip reason for a row whose date token does not parse. -/
def invalidDateMsg : Str := chars "Invalid date"

/-- Skip reason for a duplicate row. -/
def duplicateMsg : Str := chars "Duplicate transaction"

/-- Reason returned when the adapter produced no rows at all. -/
def noDataRowsMsg : Str := chars "No data rows found"

/-- The category-resolution block of the route (lines 174-184): look the
chosen name up case-insensitively (`get_category_by_name_for_user`); when
missing and creation is allowed, create it, which also appends the new name
to `user_category_names`. -/
def resolve_category (create_missing_categories : Bool) (chosen : Option Str)
    (st : LoopState) : Option Str × LoopState :=
  match chosen with
  | none => (none, st)
  | some name =>
    if name = [] then (none, st)
    else if st.categories.any (fun n => pyLower n == pyLower name) then (some name, st)
    else if create_missing_categories then
      (some name, { st with
        user_category_names := st.user_category_names ++ [name],
        categories := st.categories ++ [name] })
    else (none, st)

/-- The route's date step (lines 164-167): `_parse_date` is consulted only
when the date cell is truthy (present and non-empty). -/
def row_parse_date (r : CanonicalRow) : Option PyDateTime :=
  match r.date with
  | some d => if d ≠ [] then parse_date (some d) else none
  | none => none

/-- One iteration of the row loop of `import_transactions_from_statement`
(lines 149-190): amount resolution, then date parsing, then category
resolution, then the duplicate check; exactly one of `tx_inputs` and
`skipped_reasons` receives the row. -/
def import_row_step (create_missing_categories skip_duplicates : Bool) (db : Db)
    (st : LoopState) (r : CanonicalRow) : LoopState :=
  match compute_withdrawal_amount r with
  | none => { st with skipped_reasons := st.skipped_reasons ++ [notWithdrawalMsg] }
  | some amount =>
    if amount.isNonPos then
      { st with skipped_reasons := st.skipped_reasons ++ [notWithdrawalMsg] }
    else
      match row_parse_date r with
      | none => { st with skipped_reasons := st.skipped_reasons ++ [invalidDateMsg] }
      | some dt =>
        let description := build_description r
        let chosen := choose_category_name_from_keywords description st.user_category_names
        let resolved := resolve_category create_missing_categories chosen st
        let st1 := resolved.2
        if skip_duplicates && transaction_exists db description amount dt then
          { st1 with skipped_reasons := st1.skipped_reasons ++ [duplicateMsg] }
        else
          { st1 with tx_inputs := st1.tx_inputs ++
              [⟨description, amount, resolved.1, dt⟩] }

/-- Outcome of the adapter call inside the `try` block of the route: either
the canonical rows, or the message of a raised parse exception. -/
inductive ParseOutcome where
  | failure (msg : Str)
  | success (rows : List CanonicalRow)
deriving DecidableEq

/-- Embeds `import_transactions_from_statement` (lines 124-200) from the
point the uploaded bytes have been handed to the selected adapter: a raised
parse failure becomes an HTTP 400 error; an empty row list short-circuits
with the generic reason; otherwise the row loop runs and the single bulk
write persists exactly the accepted candidates. -/
def import_transactions_from_statement (parsed : ParseOutcome)
    (create_missing_categories skip_duplicates : Bool) (db : Db) :
    Except HTTPException TransactionImportResult :=
  match parsed with
  | .failure msg => .error ⟨400, chars "Failed to parse file: " ++ msg⟩
  | .success rows =>
    if rows = [] then .ok ⟨0, 0, [], [noDataRowsMsg]⟩
    else
      let st := rows.foldl
        (import_row_step create_missing_categories skip_duplicates db)
        ⟨[], [], db.categories, db.categories⟩
      .ok ⟨st.tx_inputs.length, st.skipped_reasons.length, st.tx_inputs,
           st.skipped_reasons⟩

/-- The fate of a single row: its skip reason, or `none` when the row is
accepted. Acceptance depends only on the row and the pre-existing store,
never on the evolving category state (proved below). -/
def row_skip_reason (skip_duplicates : Bool) (db : Db) (r : CanonicalRow) :
    Option Str :=
  match compute_withdrawal_amount r with
  | none => some notWithdrawalMsg
  | some amount =>
    if amount.isNonPos then some notWithdrawalMsg
    else
      match row_parse_date r with
      | none => some invalidDateMsg
      | some dt =>
        if skip_duplicates && transaction_exists db (build_description r) amount dt then
          some duplicateMsg
        else none

/-- Sanity of the date embedding on the spec's own examples. -/
theorem parse_date_examples :
    parse_date (some (chars "31/01/2024")) = some ⟨2024, 1, 31, 0, 0, 0⟩ ∧
    parse_date (some (chars "2024-13-40")) = none ∧
    parse_date (some (chars "15 Aug 2023")) = some ⟨2023, 8, 15, 0, 0, 0⟩ ∧
    parse_date (some (chars "31/02/2024")) = none := by decide

/-- Sanity of the amount embedding on representative tokens. -/
theorem parse_float_examples :
    parse_float (some (chars " 1,234.50 ")) = some ⟨123450, 2⟩ ∧
    parse_float (some (chars "₹500")) = some ⟨500, 0⟩ ∧
    parse_float (some (chars "Rs. 250")) = some ⟨250, 0⟩ ∧
    parse_float (some (chars "-")) = none ∧
    parse_float (some (chars "abc")) = none := by decide

/-- C1 (counterexample): a parse failure raised by the selected adapter is
propagated to the caller as a request-aborting HTTP 400 error, not returned
as a zero-created `ImportResult` with a generic skip reason. -/
theorem c1_counterexample :
    import_transactions_from_statement (.failure (chars "corrupt archive")) true true
        ⟨[], []⟩ =
      .error ⟨400, chars "Failed to parse file: corrupt archive"⟩ := rfl

/-- C1 (amended): an adapter failure always becomes an HTTP 400
`"Failed to parse file: …"` error aborting the request; the zero-created
result with the single generic reason `"No data rows found"` is returned
exactly when parsing succeeds but yields no canonical rows. -/
theorem c1_amended (msg : Str) (cmc sd : Bool) (db : Db) :
    import_transactions_from_statement (.failure msg) cmc sd db =
      .error ⟨400, chars "Failed to parse file: " ++ msg⟩ ∧
    import_transactions_from_statement (.success []) cmc sd db =
      .ok ⟨0, 0, [], [noDataRowsMsg]⟩ :=
  ⟨rfl, rfl⟩

/-- Reduction of `compute_withdrawal_amount` to its combined-amount branch
once neither the debit nor the credit cell parses to a positive value. -/
theorem compute_amount_branch (r : CanonicalRow)
    (hd : (match parse_float r.debit with | some d => d.isPos | none => false) = false)
    (hc : (match parse_float r.credit with | some c => c.isPos | none => false) = false)
    (a : Dec) (ha : parse_float r.amount = some a) :
    compute_withdrawal_amount r =
      (if r.type.map pyNormalize = some (chars "debit") ∨
          r.type.map pyNormalize = some (chars "dr") ∨
          r.type.map pyNormalize = some (chars "d") then some a.dabs
       else if r.type.map pyNormalize = some (chars "credit") ∨
          r.type.map pyNormalize = some (chars "cr") ∨
          r.type.map pyNormalize = some (chars "c") then none
       else if a.isNeg then some a.dabs else none) := by
  have h1 : ¬((match parse_float r.debit with
      | some d => d.isPos | none => false) = true) := by
    rw [hd]; exact Bool.false_ne_true
  have h2 : ¬((match parse_float r.credit with
      | some c => c.isPos | none => false) = true) := by
    rw [hc]; exact Bool.false_ne_true
  simp only [compute_withdrawal_amount]
  rw [if_neg h1, if_neg h2, ha]

/-- C2: the withdrawal resolver follows the claimed decision order — a
positive `debit` wins outright (a simultaneously positive `credit` is
ignored); otherwise a positive `credit` excludes the row; otherwise a
parsed combined `amount` is interpreted through the `type` marker when one
indicates debit or credit, and by sign when no `type` cell exists; and when
the `amount` cell does not parse either, the resolver returns `none`. -/
theorem c2_withdrawal_decision_order (r : CanonicalRow) :
    (∀ d, parse_float r.debit = some d → d.isPos = true →
        compute_withdrawal_amount r = some d) ∧
    ((∀ d, parse_float r.debit = some d → d.isPos = false) →
      ((∀ c, parse_float r.credit = some c → c.isPos = true →
          compute_withdrawal_amount r = none) ∧
       ((∀ c, parse_float r.credit = some c → c.isPos = false) →
         ((∀ a, parse_float r.amount = some a →
            ((r.type.map pyNormalize = some (chars "debit") ∨
                r.type.map pyNormalize = some (chars "dr") ∨
                r.type.map pyNormalize = some (chars "d")) →
              compute_withdrawal_amount r = some a.dabs) ∧
            ((r.type.map pyNormalize = some (chars "credit") ∨
                r.type.map pyNormalize = some (chars "cr") ∨
                r.type.map pyNormalize = some (chars "c")) →
              compute_withdrawal_amount r = none) ∧
            (r.type = none → a.isNeg = true →
              compute_withdrawal_amount r = some a.dabs) ∧
            (r.type = none → a.isNeg = false →
              compute_withdrawal_amount r = none)) ∧
          (parse_float r.amount = none → compute_withdrawal_amount r = none))))) := by
  refine ⟨fun d hd hpos => by simp [compute_withdrawal_amount, hd, hpos],
    fun hdneg => ?_⟩
  have hdash : (match parse_float r.debit with
      | some d => d.isPos | none => false) = false := by
    cases hd : parse_float r.debit with
    | none => rfl
    | some d => exact hdneg d hd
  refine ⟨?_, fun hcneg => ?_⟩
  · intro c hc hpos
    simp [compute_withdrawal_amount, hdash, hc, hpos]
  have hcash : (match parse_float r.credit with
      | some c => c.isPos | none => false) = false := by
    cases hc : parse_float r.credit with
    | none => rfl
    | some c => exact hcneg c hc
  refine ⟨?_, ?_⟩
  · intro a ha
    have hred := compute_amount_branch r hdash hcash a ha
    refine ⟨fun hty => ?_, fun hty => ?_, fun hty hneg => ?_, fun hty hneg => ?_⟩
    · rw [hred, if_pos hty]
    · have hnd : ¬(r.type.map pyNormalize = some (chars "debit") ∨
          r.type.map pyNormalize = some (chars "dr") ∨
          r.type.map pyNormalize = some (chars "d")) := by
        rcases hty with h | h | h <;> rw [h] <;> decide
      rw [hred, if_neg hnd, if_pos hty]
    · have hmap : r.type.map pyNormalize = none := by rw [hty]; rfl
      have hnd : ¬(r.type.map pyNormalize = some (chars "debit") ∨
          r.type.map pyNormalize = some (chars "dr") ∨
          r.type.map pyNormalize = some (chars "d")) := by
        rw [hmap]; decide
      have hnc : ¬(r.type.map pyNormalize = some (chars "credit") ∨
          r.type.map pyNormalize = some (chars "cr") ∨
          r.type.map pyNormalize = some (chars "c")) := by
        rw [hmap]; decide
      rw [hred, if_neg hnd, if_neg hnc, if_pos hneg]
    · have hmap : r.type.map pyNormalize = none := by rw [hty]; rfl
      have hnd : ¬(r.type.map pyNormalize = some (chars "debit") ∨
          r.type.map pyNormalize = some (chars "dr") ∨
          r.type.map pyNormalize = some (chars "d")) := by
        rw [hmap]; decide
      have hnc : ¬(r.type.map pyNormalize = some (chars "credit") ∨
          r.type.map pyNormalize = some (chars "cr") ∨
          r.type.map pyNormalize = some (chars "c")) := by
        rw [hmap]; decide
      have hneg' : ¬(Dec.isNeg a = true) := by
        rw [hneg]; exact Bool.false_ne_true
      rw [hred, if_neg hnd, if_neg hnc, if_neg hneg']
  · intro ha
    simp [compute_withdrawal_amount, hdash, hcash, ha]

/-- C2 (witness): a row with a positive debit `"100"` and a positive credit
`"50"` resolves to the debit amount, through `c2_withdrawal_decision_order`
applied at that row. -/
theorem c2_witness :
    compute_withdrawal_amount
      ⟨none, none, some (chars "100"), some (chars "50"), none, none, none⟩ =
      some ⟨100, 0⟩ :=
  (c2_withdrawal_decision_order
    ⟨none, none, some (chars "100"), some (chars "50"), none, none, none⟩).1
    ⟨100, 0⟩ (by decide) (by decide)

/-- Helper: `resolve_category` never touches the accepted list or the
reasons list. -/
theorem resolve_category_preserves (cmc : Bool) (chosen : Option Str) (st : LoopState) :
    (resolve_category cmc chosen st).2.skipped_reasons = st.skipped_reasons ∧
    (resolve_category cmc chosen st).2.tx_inputs = st.tx_inputs := by
  unfold resolve_category
  cases chosen with
  | none => exact ⟨rfl, rfl⟩
  | some name =>
    by_cases h1 : name = []
    · simp [h1]
    · simp only [if_neg h1]
      split_ifs <;> simp

/-- Helper: one loop iteration either appends the row's skip reason to the
reasons list or appends exactly one accepted candidate, in agreement with
`row_skip_reason`. -/
theorem import_row_step_fate (cmc sd : Bool) (db : Db) (st : LoopState)
    (r : CanonicalRow) :
    (import_row_step cmc sd db st r).skipped_reasons =
      st.skipped_reasons ++ (row_skip_reason sd db r).toList ∧
    (import_row_step cmc sd db st r).tx_inputs.length =
      st.tx_inputs.length +
        (if (row_skip_reason sd db r).isSome then 0 else 1) := by
  unfold import_row_step row_skip_reason
  cases hca : compute_withdrawal_amount r with
  | none => simp
  | some amount =>
    by_cases hnp : amount.isNonPos = true
    · simp [hnp]
    · cases hdt : row_parse_date r with
      | none => simp [hnp, hdt]
      | some dt =>
        obtain ⟨hp1, hp2⟩ := resolve_category_preserves cmc
          (choose_category_name_from_keywords (build_description r)
            st.user_category_names) st
        by_cases hdup : (sd && transaction_exists db (build_description r) amount dt) = true
        · simp [hnp, hdt, hdup, hp1, hp2]
        · simp [hnp, hdt, hdup, hp1, hp2]

/-- Helper: over the whole loop the reasons list accumulates exactly the
per-row reasons in input order, and every row lands in exactly one of the
two buckets. -/
theorem import_loop_fate (cmc sd : Bool) (db : Db) (rows : List CanonicalRow)
    (st : LoopState) :
    (rows.foldl (import_row_step cmc sd db) st).skipped_reasons =
      st.skipped_reasons ++ rows.filterMap (row_skip_reason sd db) ∧
    (rows.foldl (import_row_step cmc sd db) st).tx_inputs.length +
      (rows.filterMap (row_skip_reason sd db)).length =
      st.tx_inputs.length + rows.length := by
  induction rows generalizing st with
  | nil => simp
  | cons r rest ih =>
    obtain ⟨hstep1, hstep2⟩ := import_row_step_fate cmc sd db st r
    obtain ⟨ih1, ih2⟩ := ih (import_row_step cmc sd db st r)
    rw [List.foldl_cons]
    constructor
    · rw [ih1, hstep1]
      cases hr : row_skip_reason sd db r <;> simp [hr]
    · cases hr : row_skip_reason sd db r with
      | none =>
        rw [hr] at hstep2
        simp only [Option.isSome_none, Bool.false_eq_true, if_false] at hstep2
        simp only [List.filterMap_cons, hr, List.length_cons]
        omega
      | some m =>
        rw [hr] at hstep2
        simp only [Option.isSome_some, if_true] at hstep2
        simp only [List.filterMap_cons, hr, List.length_cons]
        omega

/-- C3 (counterexample): a successfully parsed file yielding zero canonical
rows returns `skipped_reasons = ["No data rows found"]` — one entry despite
zero rejected rows — so `skipped_reasons` does not hold one entry per
rejected row for every successfully parsed file. -/
theorem c3_counterexample :
    import_transactions_from_statement (.success []) true true ⟨[], []⟩ =
      .ok ⟨0, 0, [], [noDataRowsMsg]⟩ ∧
    (([] : List CanonicalRow).filterMap (row_skip_reason true ⟨[], []⟩)).length = 0 :=
  ⟨rfl, rfl⟩

/-- C3 (amended): for every successfully parsed file yielding at least one
canonical row, `created_count + skipped_count` equals the number of rows,
`skipped_reasons` lists exactly the rejected rows' reasons in input order,
and `skipped_count` equals its length; a file parsing to zero rows instead
returns the fixed zero-created result with the single generic reason. -/
theorem c3_amended (rows : List CanonicalRow) (h : rows ≠ []) (cmc sd : Bool)
    (db : Db) :
    ∃ res, import_transactions_from_statement (.success rows) cmc sd db = .ok res ∧
      res.created_count + res.skipped_count = rows.length ∧
      res.skipped_reasons = rows.filterMap (row_skip_reason sd db) ∧
      res.skipped_count = res.skipped_reasons.length := by
  obtain ⟨h1, h2⟩ := import_loop_fate cmc sd db rows
    ⟨[], [], db.categories, db.categories⟩
  simp only [import_transactions_from_statement]
  rw [if_neg h]
  refine ⟨_, rfl, ?_, ?_, rfl⟩
  · rw [h1]
    simpa using h2
  · simpa using h1

/-- C3 (witness): a two-row file (one accepted withdrawal, one rejected for
its date) satisfies the amended accounting, through `c3_amended`. -/
theorem c3_witness :
    ([⟨some (chars "31/01/2024"), some (chars "COFFEE SHOP"), some (chars "120"),
        none, none, none, none⟩,
      ⟨some (chars "oops"), none, some (chars "50"), none, none, none, none⟩] :
        List CanonicalRow) ≠ [] ∧
    (∃ res, import_transactions_from_statement
        (.success [⟨some (chars "31/01/2024"), some (chars "COFFEE SHOP"),
            some (chars "120"), none, none, none, none⟩,
          ⟨some (chars "oops"), none, some (chars "50"), none, none, none, none⟩])
        true true ⟨[], []⟩ = .ok res ∧
      res.created_count + res.skipped_count = 2 ∧
      res.skipped_reasons =
        ([⟨some (chars "31/01/2024"), some (chars "COFFEE SHOP"), some (chars "120"),
            none, none, none, none⟩,
          ⟨some (chars "oops"), none, some (chars "50"), none, none, none, none⟩] :
            List CanonicalRow).filterMap (row_skip_reason true ⟨[], []⟩) ∧
      res.skipped_count = res.skipped_reasons.length) :=
  ⟨by decide, c3_amended _ (by decide) true true ⟨[], []⟩⟩

/-- C4 (counterexample): a row whose date token (`"2024-13-40"`) and amount
cell (`"abc"`) are both unparseable is skipped with the amount-related
reason, not with `"Invalid date"` as the claim states. -/
theorem c4_counterexample :
    row_parse_date
      ⟨some (chars "2024-13-40"), none, some (chars "abc"), none, none, none, none⟩ = none ∧
    import_transactions_from_statement
      (.success [⟨some (chars "2024-13-40"), none, some (chars "abc"), none, none, none, none⟩])
      true true ⟨[], []⟩ =
      .ok ⟨0, 1, [], [notWithdrawalMsg]⟩ := by
  constructor
  · decide
  · rfl

/-- C4 (amended): amount resolution precedes date parsing in the row loop —
a row whose amount does not resolve to a positive withdrawal is skipped
with `"Not a withdrawal or amount missing"` regardless of its date, and
`"Invalid date"` is reported exactly when the amount resolves positively
but the date fails to parse. -/
theorem c4_amended (sd : Bool) (db : Db) (r : CanonicalRow) :
    ((compute_withdrawal_amount r = none ∨
        (∃ a, compute_withdrawal_amount r = some a ∧ a.isNonPos = true)) →
      row_skip_reason sd db r = some notWithdrawalMsg) ∧
    (∀ a, compute_withdrawal_amount r = some a → a.isNonPos = false →
      row_parse_date r = none → row_skip_reason sd db r = some invalidDateMsg) := by
  unfold row_skip_reason
  constructor
  · rintro (h | ⟨a, ha, hnp⟩)
    · simp [h]
    · simp [ha, hnp]
  · intro a ha hnp hdate
    simp [ha, hnp, hdate]

/-- C4 (witness): a row with a valid amount `"100"` and the invalid date
token `"2024-13-40"` is skipped with `"Invalid date"`, through
`c4_amended`. -/
theorem c4_witness :
    row_skip_reason true ⟨[], []⟩
      ⟨some (chars "2024-13-40"), none, some (chars "100"), none, none, none, none⟩ =
      some invalidDateMsg :=
  (c4_amended true ⟨[], []⟩
    ⟨some (chars "2024-13-40"), none, some (chars "100"), none, none, none, none⟩).2
    ⟨100, 0⟩ (by decide) (by decide) (by decide)

/-- C6 (counterexample): the spreadsheet adapter does not always map fields
to the same column as the text adapter — a header whose description column
sits at index 0 is remapped to index 1 by the Excel adapter's
`_find_column(...) or 1`, and a header with no date match defaults to
column 0 instead of a null field. -/
theorem c6_counterexample :
    (csv_field_indices [chars "Narration", chars "Date"]).desc_idx = some 0 ∧
    (excel_field_indices [chars "Narration", chars "Date"]).desc_idx = 1 ∧
    (csv_field_indices [chars "Withdrawal"]).date_idx = none ∧
    (excel_field_indices [chars "Withdrawal"]).date_idx = 0 := by decide

/-- C6 (amended): the spreadsheet adapter agrees with the text adapter on
the `debit`, `credit`, `amount`, `type` and `reference` columns; the `date`
column agrees whenever the text adapter finds one and falls back to column
0 (never null) otherwise; the `description` column agrees only when the
text adapter's match is at a positive index, and falls back to column 1
both when there is no match and when the match is at index 0. -/
theorem c6_amended (header : List Str) :
    (excel_field_indices header).debit_idx = (csv_field_indices header).debit_idx ∧
    (excel_field_indices header).credit_idx = (csv_field_indices header).credit_idx ∧
    (excel_field_indices header).amount_idx = (csv_field_indices header).amount_idx ∧
    (excel_field_indices header).type_idx = (csv_field_indices header).type_idx ∧
    (excel_field_indices header).ref_idx = (csv_field_indices header).ref_idx ∧
    ((csv_field_indices header).date_idx = none →
      (excel_field_indices header).date_idx = 0) ∧
    (∀ k, (csv_field_indices header).date_idx = some k →
      (excel_field_indices header).date_idx = k) ∧
    (((csv_field_indices header).desc_idx = none ∨
        (csv_field_indices header).desc_idx = some 0) →
      (excel_field_indices header).desc_idx = 1) ∧
    (∀ k, (csv_field_indices header).desc_idx = some (k + 1) →
      (excel_field_indices header).desc_idx = k + 1) := by
  refine ⟨rfl, rfl, rfl, rfl, rfl, ?_, ?_, ?_, ?_⟩
  · intro h
    simp [excel_field_indices, csv_field_indices] at h ⊢
    simp [h, pyOr]
  · intro k h
    simp [excel_field_indices, csv_field_indices] at h ⊢
    simp [h, pyOr]
    rcases Nat.eq_zero_or_pos k with hk | hk
    · simp [hk]
    · simp [Nat.pos_iff_ne_zero.mp hk]
  · rintro (h | h) <;>
      simp [excel_field_indices, csv_field_indices] at h ⊢ <;> simp [h, pyOr]
  · intro k h
    simp [excel_field_indices, csv_field_indices] at h ⊢
    simp [h, pyOr]

/-- C6 (witness): at the header `["Narration"]` the text adapter finds the
description at index 0 and `c6_amended` yields the Excel adapter's remap to
column 1. -/
theorem c6_witness :
    (excel_field_indices [chars "Narration"]).desc_idx = 1 :=
  ((c6_amended [chars "Narration"]).2.2.2.2.2.2.2.1) (Or.inr (by decide))

/-- Helper: `first_index_where` returns `i` when position `i` satisfies the
predicate and no earlier position does. -/
theorem first_index_where_eq_some (p : Str → Bool) (l : List Str) (i : Nat)
    (hp : ∃ x, l.get? i = some x ∧ p x = true)
    (hmin : ∀ j, j < i → ∀ x, l.get? j = some x → p x = false) :
    first_index_where p l = some i := by
  induction l generalizing i with
  | nil =>
    obtain ⟨x, hx, _⟩ := hp
    simp at hx
  | cons a t ih =>
    cases i with
    | zero =>
      obtain ⟨x, hx, hpx⟩ := hp
      obtain rfl : a = x := by simpa using hx
      simp [first_index_where, hpx]
    | succ n =>
      obtain ⟨x, hx, hpx⟩ := hp
      have ha : p a = false := hmin 0 (Nat.succ_pos n) a rfl
      have ht : first_index_where p t = some n :=
        ih n ⟨x, hx, hpx⟩ (fun j hj y hy => hmin (j + 1) (Nat.succ_lt_succ hj) y hy)
      simp [first_index_where, ha, ht]

/-- Helper: `first_index_where` returns `none` when no element satisfies
the predicate. -/
theorem first_index_where_eq_none (p : Str → Bool) (l : List Str)
    (h : ∀ x ∈ l, p x = false) :
    first_index_where p l = none := by
  induction l with
  | nil => rfl
  | cons a t ih =>
    simp [first_index_where, h a (List.mem_cons_self a t),
      ih (fun x hx => h x (List.mem_cons_of_mem a hx))]

/-- Header position `i` exactly equals (after normalization) one of the
candidate names. -/
def exactMatchAt (header candidates : List Str) (i : Nat) : Bool :=
  match (header.map pyNormalize).get? i with
  | some name => candidates.any (fun cand => cand == name)
  | none => false

/-- Header position `i` contains (after normalization) one of the candidate
names as a substring. -/
def subMatchAt (header candidates : List Str) (i : Nat) : Bool :=
  match (header.map pyNormalize).get? i with
  | some name => candidates.any (fun cand => containsSub cand name)
  | none => false

/-- C5: column detection prefers an exact normalized match anywhere in the
header over any substring match — the first exactly-matching index wins
even when an earlier cell substring-contains a candidate; only when no cell
matches exactly does the first substring-containing index win; with neither
kind of match the field stays unmapped. -/
theorem c5_exact_match_priority (header candidates : List Str) (i : Nat) :
    (exactMatchAt header candidates i = true →
      (∀ j, j < i → exactMatchAt header candidates j = false) →
      find_column header candidates = some i) ∧
    ((∀ j, exactMatchAt header candidates j = false) →
      subMatchAt header candidates i = true →
      (∀ j, j < i → subMatchAt header candidates j = false) →
      find_column header candidates = some i) ∧
    ((∀ j, exactMatchAt header candidates j = false) →
      (∀ j, subMatchAt header candidates j = false) →
      find_column header candidates = none) := by
  have hexact : ∀ j x, (header.map pyNormalize).get? j = some x →
      exactMatchAt header candidates j = (candidates.any (fun cand => cand == x)) := by
    intro j x hx
    unfold exactMatchAt
    rw [hx]
  have hsub : ∀ j x, (header.map pyNormalize).get? j = some x →
      subMatchAt header candidates j = (candidates.any (fun cand => containsSub cand x)) := by
    intro j x hx
    unfold subMatchAt
    rw [hx]
  refine ⟨?_, ?_, ?_⟩
  · intro hi hmin
    have h1 : first_index_where (fun name => candidates.any (fun cand => cand == name))
        (header.map pyNormalize) = some i := by
      apply first_index_where_eq_some
      · cases hx : (header.map pyNormalize).get? i with
        | none => unfold exactMatchAt at hi; rw [hx] at hi; exact absurd hi (by simp)
        | some name =>
          refine ⟨name, rfl, ?_⟩
          unfold exactMatchAt at hi
          rw [hx] at hi
          exact hi
      · intro j hj x hx
        have := hmin j hj
        rw [hexact j x hx] at this
        exact this
    simp [find_column, h1]
  · intro hnone hi hmin
    have h0 : first_index_where (fun name => candidates.any (fun cand => cand == name))
        (header.map pyNormalize) = none := by
      apply first_index_where_eq_none
      intro x hxmem
      obtain ⟨j, hj⟩ := List.get?_of_mem hxmem
      have := hnone j
      rw [hexact j x hj] at this
      exact this
    have h1 : first_index_where
        (fun name => candidates.any (fun cand => containsSub cand name))
        (header.map pyNormalize) = some i := by
      apply first_index_where_eq_some
      · cases hx : (header.map pyNormalize).get? i with
        | none => unfold subMatchAt at hi; rw [hx] at hi; exact absurd hi (by simp)
        | some name =>
          refine ⟨name, rfl, ?_⟩
          unfold subMatchAt at hi
          rw [hx] at hi
          exact hi
      · intro j hj x hx
        have := hmin j hj
        rw [hsub j x hx] at this
        exact this
    simp [find_column, h0, h1]
  · intro hnone hnosub
    have h0 : first_index_where (fun name => candidates.any (fun cand => cand == name))
        (header.map pyNormalize) = none := by
      apply first_index_where_eq_none
      intro x hxmem
      obtain ⟨j, hj⟩ := List.get?_of_mem hxmem
      have := hnone j
      rw [hexact j x hj] at this
      exact this
    have h1 : first_index_where
        (fun name => candidates.any (fun cand => containsSub cand name))
        (header.map pyNormalize) = none := by
      apply first_index_where_eq_none
      intro x hxmem
      obtain ⟨j, hj⟩ := List.get?_of_mem hxmem
      have := hnosub j
      rw [hsub j x hj] at this
      exact this
    simp [find_column, h0, h1]

/-- C5 (witness): with header `["Txn Date x", "Date"]` and candidate
`"date"`, the exact match at index 1 wins over the substring match at
index 0, through `c5_exact_match_priority`. -/
theorem c5_witness :
    find_column [chars "Txn Date x", chars "Date"] [chars "date"] = some 1 :=
  (c5_exact_match_priority [chars "Txn Date x", chars "Date"] [chars "date"] 1).1
    (by decide)
    (fun j hj => by
      have hj0 : j = 0 := Nat.lt_one_iff.mp hj
      subst hj0
      decide)

/-- Helper: `List.find?` returns the element at position `i` when it
satisfies the predicate and no earlier element does. -/
theorem find?_eq_some_of_first {α : Type} (p : α → Bool) (l : List α) (i : Nat) (x : α)
    (hx : l.get? i = some x) (hpx : p x = true)
    (hmin : ∀ j y, j < i → l.get? j = some y → p y = false) :
    l.find? p = some x := by
  induction l generalizing i with
  | nil => simp at hx
  | cons a t ih =>
    cases i with
    | zero =>
      obtain rfl : a = x := by simpa using hx
      exact List.find?_cons_of_pos t hpx
    | succ n =>
      have ha : p a = false := hmin 0 a (Nat.succ_pos n) rfl
      have ht : t.find? p = some x :=
        ih n hx (fun j y hj hy => hmin (j + 1) y (Nat.succ_lt_succ hj) hy)
      rw [List.find?_cons_of_neg t (by simp [ha]), ht]

/-- Each keyword of the classifier table is non-empty. -/
theorem keyword_nonempty : ∀ kv ∈ DEFAULT_KEYWORD_TO_CATEGORY, kv.1 ≠ [] := by decide

/-- C9: the classifier returns the category of the first keyword, in table
definition order, contained in the lowercased description; only when no
table keyword matches does it return the first caller-supplied category
name contained case-insensitively; with neither (or an empty normalized
description) it returns `none`. -/
theorem c9_keyword_priority (description : Str) (user_category_names : List Str) :
    (∀ i kw cat, DEFAULT_KEYWORD_TO_CATEGORY.get? i = some (kw, cat) →
        containsSub kw (pyNormalize description) = true →
        (∀ j kv, j < i → DEFAULT_KEYWORD_TO_CATEGORY.get? j = some kv →
          containsSub kv.1 (pyNormalize description) = false) →
        choose_category_name_from_keywords description user_category_names = some cat) ∧
    ((∀ kv, kv ∈ DEFAULT_KEYWORD_TO_CATEGORY →
        containsSub kv.1 (pyNormalize description) = false) →
      ((pyNormalize description ≠ [] →
          ∀ i name, user_category_names.get? i = some name →
          (!name.isEmpty && containsSub (pyNormalize name) (pyNormalize description)) = true →
          (∀ j name', j < i → user_category_names.get? j = some name' →
            (!name'.isEmpty &&
              containsSub (pyNormalize name') (pyNormalize description)) = false) →
          choose_category_name_from_keywords description user_category_names = some name) ∧
       ((∀ name, name ∈ user_category_names →
          (!name.isEmpty && containsSub (pyNormalize name) (pyNormalize description)) = false) →
        choose_category_name_from_keywords description user_category_names = none))) := by
  refine ⟨?_, fun hkw => ⟨?_, ?_⟩⟩
  · intro i kw cat hi hcont hmin
    by_cases htext : pyNormalize description = []
    · exfalso
      have hmem : (kw, cat) ∈ DEFAULT_KEYWORD_TO_CATEGORY := List.get?_mem hi
      have hne : kw ≠ [] := keyword_nonempty (kw, cat) hmem
      rw [htext] at hcont
      simp [containsSub] at hcont
      exact hne hcont
    · have hfind : DEFAULT_KEYWORD_TO_CATEGORY.find?
          (fun kv => containsSub kv.1 (pyNormalize description)) = some (kw, cat) :=
        find?_eq_some_of_first _ _ i (kw, cat) hi hcont hmin
      simp [choose_category_name_from_keywords, htext, hfind]
  · intro htext i name hi hname hmin
    have h0 : DEFAULT_KEYWORD_TO_CATEGORY.find?
        (fun kv => containsSub kv.1 (pyNormalize description)) = none :=
      List.find?_eq_none.mpr (fun kv hkv => by simp [hkw kv hkv])
    have h1 : user_category_names.find?
        (fun n => !n.isEmpty && containsSub (pyNormalize n) (pyNormalize description)) =
        some name :=
      find?_eq_some_of_first _ _ i name hi hname
        (fun j y hj hy => hmin j y hj hy)
    simp [choose_category_name_from_keywords, htext, h0, h1]
  · intro huser
    by_cases htext : pyNormalize description = []
    · simp [choose_category_name_from_keywords, htext]
    · have h0 : DEFAULT_KEYWORD_TO_CATEGORY.find?
          (fun kv => containsSub kv.1 (pyNormalize description)) = none :=
        List.find?_eq_none.mpr (fun kv hkv => by simp [hkw kv hkv])
      have h1 : user_category_names.find?
          (fun n => !n.isEmpty && containsSub (pyNormalize n) (pyNormalize description)) =
          none :=
        List.find?_eq_none.mpr (fun n hn => by simp [huser n hn])
      simp [choose_category_name_from_keywords, htext, h0, h1]

/-- C9 (witness): description `"UPI-ZOMATO-123"` classifies to
`"Food & Dining"` through the table's first keyword `"zomato"`, even with a
user category literally named `"UPI"`, through `c9_keyword_priority`. -/
theorem c9_witness :
    choose_category_name_from_keywords (chars "UPI-ZOMATO-123") [chars "UPI"] =
      some (chars "Food & Dining") :=
  (c9_keyword_priority (chars "UPI-ZOMATO-123") [chars "UPI"]).1
    0 (chars "zomato") (chars "Food & Dining") (by decide) (by decide)
    (fun j kv hj _ => absurd hj (Nat.not_lt_zero j))

/-- C10: the date token `"2024-01-31T15:30:00"` matches none of the six
fixed `strptime` patterns, yet `_parse_date` still succeeds through the
final ISO fallback, producing the calendar date with the time zeroed, and a
row carrying that token together with a valid withdrawal amount is not
rejected. -/
theorem c10_iso_fallback :
    dateFormats.findSome?
        (fun fmt => strptimeDate fmt (chars "2024-01-31T15:30:00")) = none ∧
    parse_date (some (chars "2024-01-31T15:30:00")) = some ⟨2024, 1, 31, 0, 0, 0⟩ ∧
    row_skip_reason true ⟨[], []⟩
      ⟨some (chars "2024-01-31T15:30:00"), some (chars "POS PURCHASE"),
       some (chars "250"), none, none, none, none⟩ = none := by decide

/-- Helper: lookup inside a `replicate`. -/
theorem get?_replicate (a : Str) (m j : Nat) (h : j < m) :
    (List.replicate m a).get? j = some a := by
  induction m generalizing j with
  | zero => exact absurd h (Nat.not_lt_zero j)
  | succ mm ih =>
    cases j with
    | zero => rfl
    | succ jj => exact ih jj (Nat.lt_of_succ_lt_succ h)

/-- Helper: lookup inside a padded list, below the padding bound. -/
theorem padTo_get? (xs : List Str) (n i : Nat) (h : i < n) :
    (padTo xs n).get? i = some ((xs.get? i).getD []) := by
  unfold padTo
  by_cases hx : i < xs.length
  · rw [List.get?_append hx]
    cases hgx : xs.get? i with
    | none => exact absurd (List.get?_eq_none.mp hgx) (by omega)
    | some v => rfl
  · have hlen : xs.length ≤ i := Nat.le_of_not_lt hx
    rw [List.get?_append_right hlen,
      get?_replicate [] (n - xs.length) (i - xs.length) (by omega)]
    have hnone : xs.get? i = none := List.get?_eq_none.mpr hlen
    rw [hnone]; rfl

/-- Helper: `chunksFuel` ignores the exact fuel once it bounds the length. -/
theorem chunksFuel_congr (k fuel fuel' : Nat) (xs : List Str)
    (h : xs.length ≤ fuel) (h' : xs.length ≤ fuel') :
    chunksFuel k fuel xs = chunksFuel k fuel' xs := by
  induction fuel generalizing xs fuel' with
  | zero =>
    obtain rfl : xs = [] := List.length_eq_zero.mp (Nat.le_zero.mp h)
    cases fuel' <;> rfl
  | succ m ih =>
    cases xs with
    | nil => cases fuel' <;> rfl
    | cons x t =>
      cases fuel' with
      | zero => simp at h'
      | succ m' =>
        simp only [chunksFuel]
        congr 1
        have h1 : 1 ≤ max 1 k := le_max_left 1 k
        have hd := List.length_drop (max 1 k) (x :: t)
        exact ih m' _
          (by rw [hd]; simp only [List.length_cons] at h ⊢; omega)
          (by rw [hd]; simp only [List.length_cons] at h' ⊢; omega)

/-- Helper: joining an empty group list gives the empty string. -/
theorem intercalate_nil_eq : List.intercalate (chars " ") ([] : List Str) = [] := rfl

/-- Helper: the `i`-th space-joined chunk, with the empty string as the
out-of-range default, is the join of the `i`-th slice of size `k`. -/
theorem chunks_join_getD (k : Nat) (hk : 0 < k) (xs : List Str) (i : Nat) :
    (((chunks k xs).map (List.intercalate (chars " "))).get? i).getD [] =
      List.intercalate (chars " ") ((xs.drop (i * k)).take k) := by
  have hmax : max 1 k = k := Nat.max_eq_right hk
  induction i generalizing xs with
  | zero =>
    cases xs with
    | nil => simp [chunks, chunksFuel, intercalate_nil_eq]
    | cons x t => simp [chunks, chunksFuel, hmax]
  | succ n ih =>
    cases xs with
    | nil => simp [chunks, chunksFuel, intercalate_nil_eq]
    | cons x t =>
      have hcf : chunksFuel k t.length ((x :: t).drop k) =
          chunks k ((x :: t).drop k) := by
        unfold chunks
        refine chunksFuel_congr k t.length _ _ ?_ (le_refl _)
        rw [List.length_drop, List.length_cons]
        omega
      show (((chunksFuel k (x :: t).length (x :: t)).map
          (List.intercalate (chars " "))).get? (n + 1)).getD [] = _
      rw [show (x :: t).length = t.length + 1 from rfl]
      rw [show chunksFuel k (t.length + 1) (x :: t) =
          (x :: t).take (max 1 k) ::
            chunksFuel k t.length ((x :: t).drop (max 1 k)) from rfl]
      rw [hmax]
      simp only [List.map_cons, List.get?_cons_succ]
      rw [hcf, ih ((x :: t).drop k), List.drop_drop, Nat.succ_mul,
        Nat.add_comm k (n * k)]

/-- Helper: element `i < n` of the padded description-group list is the
space-join of the `i`-th slice of the description lines. -/
theorem desc_group_formula (ls : List Str) (k n i : Nat) (hk : 0 < k) (hi : i < n) :
    (padTo (if ls = [] then []
        else (chunks k ls).map (List.intercalate (chars " "))) n).get? i =
      some (List.intercalate (chars " ") ((ls.drop (i * k)).take k)) := by
  by_cases hls : ls = []
  · subst hls
    rw [if_pos rfl, padTo_get? [] n i hi]
    simp [intercalate_nil_eq]
  · rw [if_neg hls, padTo_get? _ n i hi, chunks_join_getD k hk ls i]

/-- Helper: reading every position of a list through `get?`. -/
theorem range_map_get? {α : Type} (l : List α) :
    (List.range l.length).map (fun i => l.get? i) = l.map some := by
  induction l with
  | nil => rfl
  | cons a t ih =>
    rw [List.length_cons, List.range_succ_eq_map, List.map_cons, List.map_map]
    have hcomp : ((fun i => (a :: t).get? i) ∘ Nat.succ) = (fun i => t.get? i) := rfl
    rw [hcomp, ih]
    rfl

/-- Helper: the reconstruction loop emits one row per index, whose date and
description cells read the corresponding positions of the input lists
(independently of the amount cursors). -/
theorem explode_go_shape (dates desc_groups refs debits credits : List Str)
    (idxs : List Nat) (d c : Nat) :
    (explode_go dates desc_groups refs debits credits idxs d c).length =
      idxs.length ∧
    (explode_go dates desc_groups refs debits credits idxs d c).map
      (fun r => r.description) = idxs.map (fun i => desc_groups.get? i) ∧
    (explode_go dates desc_groups refs debits credits idxs d c).map
      (fun r => r.date) = idxs.map (fun i => dates.get? i) := by
  induction idxs generalizing d c with
  | nil => exact ⟨rfl, rfl, rfl⟩
  | cons i rest ih =>
    obtain ⟨ih1, ih2, ih3⟩ := ih
      (assign_amounts debits credits (desc_groups.get? i) d c).2.2.1
      (assign_amounts debits credits (desc_groups.get? i) d c).2.2.2
    refine ⟨?_, ?_, ?_⟩
    · simp only [explode_go, List.length_cons, ih1]
    · simp only [explode_go, List.map_cons, ih2]
    · simp only [explode_go, List.map_cons, ih3]

/-- C7: multi-line reconstruction produces exactly one canonical row per
non-empty date line (zero date lines give zero rows), each row carrying its
own date line, and the `i`-th row's description is the space-join of the
`i`-th group of `max 1 (total description lines / N)` description lines,
empty once the lines run out. -/
theorem c7_multiline_reconstruction (row : CanonicalRow) :
    (explode_multiline_pdf_row row).length = (split_lines row.date).length ∧
    (explode_multiline_pdf_row row).map (fun r => r.date) =
      (split_lines row.date).map some ∧
    (explode_multiline_pdf_row row).map (fun r => r.description) =
      (List.range (split_lines row.date).length).map (fun i =>
        some (List.intercalate (chars " ")
          (((split_lines row.description).drop
              (i * max 1 ((split_lines row.description).length /
                (split_lines row.date).length))).take
            (max 1 ((split_lines row.description).length /
              (split_lines row.date).length))))) := by
  simp only [explode_multiline_pdf_row]
  by_cases hd : split_lines row.date = []
  · simp [hd]
  · rw [if_neg hd]
    obtain ⟨h1, h2, h3⟩ := explode_go_shape (split_lines row.date)
      (padTo (if split_lines row.description = [] then []
        else (chunks (max 1 ((split_lines row.description).length /
            (split_lines row.date).length))
          (split_lines row.description)).map (List.intercalate (chars " ")))
        (split_lines row.date).length)
      (split_lines row.ref) (split_lines row.debit) (split_lines row.credit)
      (List.range (split_lines row.date).length) 0 0
    refine ⟨?_, ?_, ?_⟩
    · rw [h1, List.length_range]
    · rw [h3, range_map_get?]
    · rw [h2]
      apply List.map_congr_left
      intro i hi
      exact desc_group_formula (split_lines row.description)
        (max 1 ((split_lines row.description).length /
          (split_lines row.date).length))
        (split_lines row.date).length i
        (lt_of_lt_of_le one_pos (le_max_left 1 _))
        (List.mem_range.mp hi)

/-- C8 (counterexample): in a merged row with two date lines, no
description cell, two debit lines and one credit line, both reconstructed
transactions have an empty description yet both consume debit-line values
(the credit line is left unused), contradicting the claim that
empty-description transactions consume the next credit-line value. -/
theorem c8_counterexample :
    (explode_multiline_pdf_row
      ⟨some (chars "01/01/2024\n02/01/2024"), none,
        some (chars "100\n150"), some (chars "200"), none, none, none⟩).map
      (fun r => (r.debit, r.credit)) =
    [(some (chars "100"), none), (some (chars "150"), none)] := by decide

/-- C8 (amended): a position with a non-empty marker-containing description
consumes the next unused debit line; a non-empty description without a
marker consumes the next unused credit line; when the preferred list is
exhausted the fallback consumes from the debit list first, then the credit
list; and a position with an empty description skips classification
entirely and goes straight to that fallback (debit first), rather than
consuming a credit line. -/
theorem c8_amended (debits credits : List Str) (s : Str) (d c : Nat) :
    (s ≠ [] → looksLikeDebit s = true → d < debits.length →
      assign_amounts debits credits (some s) d c =
        (debits.get? d, none, d + 1, c)) ∧
    (s ≠ [] → looksLikeDebit s = true → debits.length ≤ d → c < credits.length →
      assign_amounts debits credits (some s) d c =
        (none, credits.get? c, d, c + 1)) ∧
    (s ≠ [] → looksLikeDebit s = false → c < credits.length →
      assign_amounts debits credits (some s) d c =
        (none, credits.get? c, d, c + 1)) ∧
    (s ≠ [] → looksLikeDebit s = false → credits.length ≤ c → d < debits.length →
      assign_amounts debits credits (some s) d c =
        (debits.get? d, none, d + 1, c)) ∧
    (d < debits.length →
      assign_amounts debits credits (some []) d c =
        (debits.get? d, none, d + 1, c)) ∧
    (debits.length ≤ d → c < credits.length →
      assign_amounts debits credits (some []) d c =
        (none, credits.get? c, d, c + 1)) ∧
    (debits.length ≤ d → credits.length ≤ c →
      assign_amounts debits credits (some s) d c = (none, none, d, c)) := by
  refine ⟨?_, ?_, ?_, ?_, ?_, ?_, ?_⟩
  · intro hs hmk hd
    have hv := List.get?_eq_get hd
    simp only [assign_amounts]
    rw [if_pos hs, if_pos hmk, if_pos hd, hv]
    rw [if_neg (by simp)]
  · intro hs hmk hdge hc
    have hnd : ¬ d < debits.length := Nat.not_lt.mpr hdge
    have hv := List.get?_eq_get hc
    simp only [assign_amounts]
    rw [if_pos hs, if_pos hmk, if_neg hnd]
    rw [if_pos (by simp), if_neg hnd, if_pos hc, hv]
  · intro hs hmk hc
    have hv := List.get?_eq_get hc
    have hmk' : ¬ looksLikeDebit s = true := by rw [hmk]; exact Bool.false_ne_true
    simp only [assign_amounts]
    rw [if_pos hs, if_neg hmk', if_pos hc, hv]
    rw [if_neg (by simp)]
  · intro hs hmk hcge hd
    have hnc : ¬ c < credits.length := Nat.not_lt.mpr hcge
    have hmk' : ¬ looksLikeDebit s = true := by rw [hmk]; exact Bool.false_ne_true
    have hv := List.get?_eq_get hd
    simp only [assign_amounts]
    rw [if_pos hs, if_neg hmk', if_neg hnc]
    rw [if_pos (by simp), if_pos hd, hv]
  · intro hd
    have hv := List.get?_eq_get hd
    simp only [assign_amounts]
    rw [if_neg (fun (h : ([] : Str) ≠ []) => h rfl)]
    rw [if_pos (by simp), if_pos hd, hv]
  · intro hdge hc
    have hnd : ¬ d < debits.length := Nat.not_lt.mpr hdge
    have hv := List.get?_eq_get hc
    simp only [assign_amounts]
    rw [if_neg (fun (h : ([] : Str) ≠ []) => h rfl)]
    rw [if_pos (by simp), if_neg hnd, if_pos hc, hv]
  · intro hdge hcge
    have hnd : ¬ d < debits.length := Nat.not_lt.mpr hdge
    have hnc : ¬ c < credits.length := Nat.not_lt.mpr hcge
    by_cases hse : s = []
    · subst hse
      simp only [assign_amounts]
      rw [if_neg (fun (h : ([] : Str) ≠ []) => h rfl)]
      rw [if_pos (by simp), if_neg hnd, if_neg hnc]
    · by_cases hb : looksLikeDebit s = true
      · simp only [assign_amounts]
        rw [if_pos hse, if_pos hb, if_neg hnd]
        rw [if_pos (by simp), if_neg hnd, if_neg hnc]
      · simp only [assign_amounts]
        rw [if_pos hse, if_neg hb, if_neg hnc]
        rw [if_pos (by simp), if_neg hnd, if_neg hnc]

/-- C8 (witness): with debit lines `["100", "150"]`, credit line `["200"]`
and cursors at zero, an empty-description position consumes the first debit
line, through `c8_amended`. -/
theorem c8_witness :
    assign_amounts [chars "100", chars "150"] [chars "200"] (some []) 0 0 =
      (some (chars "100"), none, 1, 0) := by
  have h := (c8_amended [chars "100", chars "150"] [chars "200"] [] 0 0).2.2.2.2.1
    (by decide)
  rw [h]
  decide

end BudgetPay
